import Mathlib

/-!
Verification of the LINE webhook proxy (Hono / Vercel handler).

The development embeds the most mature revision of the handler
(`src/unnamed/part_001`): environment validation, HMAC-SHA256 signature
creation and verification (Node `crypto` semantics, modelled bit-exactly
over `Nat`), header sanitisation, and the dual-forward POST handler.
The event dispatcher (bracket filter) and the media pipeline are
documented in the repository README and the design spec but their
implementation is not among the provided source files; they are modelled
from the spec where noted.
-/

namespace LineProxy

/-! ## String helpers (ASCII case folding, prefix and substring tests) -/

def lowerStr (s : String) : String := String.mk (s.data.map Char.toLower)

def upperStr (s : String) : String := String.mk (s.data.map Char.toUpper)

/-- Boolean prefix test on strings, via the underlying character lists. -/
def strStartsWith (s p : String) : Bool := p.data.isPrefixOf s.data

/-- Boolean infix (substring) test on character lists, structural in the
haystack. -/
def listInfix (needle : List Char) : List Char → Bool
  | [] => needle.isEmpty
  | c :: t => needle.isPrefixOf (c :: t) || listInfix needle t

/-- Boolean substring test on strings (JS `String.includes`). -/
def strContains (s sub : String) : Bool := listInfix sub.data s.data

/-! ## Bitwise operations on 32-bit words modelled over `Nat`

All word arithmetic is `Nat` with explicit reduction `% 2^32`; the
bitwise operations recurse structurally on a fuel of 32 bits so that
they evaluate by kernel reduction. -/

def pow2_32 : Nat := 4294967296

def w32 (n : Nat) : Nat := n % pow2_32

/-- Bitwise exclusive or of the low `k` bits. -/
def xorBits : Nat → Nat → Nat → Nat
  | 0, _, _ => 0
  | k + 1, x, y => ((x + y) % 2) + 2 * xorBits k (x / 2) (y / 2)

/-- Bitwise conjunction of the low `k` bits. -/
def andBits : Nat → Nat → Nat → Nat
  | 0, _, _ => 0
  | k + 1, x, y => ((x % 2) * (y % 2)) + 2 * andBits k (x / 2) (y / 2)

def xor32 (x y : Nat) : Nat := xorBits 32 x y

def and32 (x y : Nat) : Nat := andBits 32 x y

/-- 32-bit complement (exclusive or with all ones). -/
def not32 (x : Nat) : Nat := xorBits 32 x 4294967295

/-- Right rotation of a 32-bit word by `n` bits. -/
def rotr (n x : Nat) : Nat := x / 2 ^ n + (x % 2 ^ n) * 2 ^ (32 - n)

/-- Logical right shift of a 32-bit word by `n` bits. -/
def shr (n x : Nat) : Nat := x / 2 ^ n

/-! ## SHA-256 (FIPS 180-4), as implemented by Node `crypto` -/

def sha_ch (x y z : Nat) : Nat := xor32 (and32 x y) (and32 (not32 x) z)

def sha_maj (x y z : Nat) : Nat := xor32 (xor32 (and32 x y) (and32 x z)) (and32 y z)

def bigSigma0 (x : Nat) : Nat := xor32 (xor32 (rotr 2 x) (rotr 13 x)) (rotr 22 x)

def bigSigma1 (x : Nat) : Nat := xor32 (xor32 (rotr 6 x) (rotr 11 x)) (rotr 25 x)

def smallSigma0 (x : Nat) : Nat := xor32 (xor32 (rotr 7 x) (rotr 18 x)) (shr 3 x)

def smallSigma1 (x : Nat) : Nat := xor32 (xor32 (rotr 17 x) (rotr 19 x)) (shr 10 x)

/-- The 64 SHA-256 round constants (fractional parts of cube roots of the
first 64 primes). -/
def K256 : List Nat :=
  [1116352408, 1899447441, 3049323471, 3921009573, 961987163, 1508970993,
   2453635748, 2870763221, 3624381080, 310598401, 607225278, 1426881987,
   1925078388, 2162078206, 2614888103, 3248222580, 3835390401, 4022224774,
   264347078, 604807628, 770255983, 1249150122, 1555081692, 1996064986,
   2554220882, 2821834349, 2952996808, 3210313671, 3336571891, 3584528711,
   113926993, 338241895, 666307205, 773529912, 1294757372, 1396182291,
   1695183700, 1986661051, 2177026350, 2456956037, 2730485921, 2820302411,
   3259730800, 3345764771, 3516065817, 3600352804, 4094571909, 275423344,
   430227734, 506948616, 659060556, 883997877, 958139571, 1322822218,
   1537002063, 1747873779, 1955562222, 2024104815, 2227730452, 2361852424,
   2428436474, 2756734187, 3204031479, 3329325298]

/-- The SHA-256 working state: eight 32-bit words. -/
structure Hash8 where
  a : Nat
  b : Nat
  c : Nat
  d : Nat
  e : Nat
  f : Nat
  g : Nat
  h : Nat

/-- Initial hash value (fractional parts of square roots of the first
eight primes). -/
def initH : Hash8 :=
  ⟨1779033703, 3144134277, 1013904242, 2773480762,
   1359893119, 2600822924, 528734635, 1541459225⟩

/-- Big-endian byte serialisation of a number into `k` bytes. -/
def bytesBE : Nat → Nat → List Nat
  | 0, _ => []
  | k + 1, n => bytesBE k (n / 256) ++ [n % 256]

/-- Group a byte list into big-endian 32-bit words. -/
def bytesToWords : List Nat → List Nat
  | b0 :: b1 :: b2 :: b3 :: rest =>
      (((b0 * 256 + b1) * 256 + b2) * 256 + b3) :: bytesToWords rest
  | _ => []

/-- Extend a 16-word message block to the full 64-entry schedule by `k`
additional steps. -/
def extendSchedule (w : List Nat) : Nat → List Nat
  | 0 => w
  | k + 1 =>
      let w' := extendSchedule w k
      let n := w'.length
      w' ++ [w32 (smallSigma1 (w'.getD (n - 2) 0) + w'.getD (n - 7) 0 +
                  smallSigma0 (w'.getD (n - 15) 0) + w'.getD (n - 16) 0)]

/-- One SHA-256 round: consume a pair of round constant and schedule
word. -/
def roundFn (s : Hash8) (kw : Nat × Nat) : Hash8 :=
  let t1 := w32 (s.h + bigSigma1 s.e + sha_ch s.e s.f s.g + kw.1 + kw.2)
  let t2 := w32 (bigSigma0 s.a + sha_maj s.a s.b s.c)
  ⟨w32 (t1 + t2), s.a, s.b, s.c, w32 (s.d + t1), s.e, s.f, s.g⟩

/-- Compress one 64-byte block into the running hash. -/
def compress (H : Hash8) (block : List Nat) : Hash8 :=
  let w := extendSchedule (bytesToWords block) 48
  let s := (K256.zip w).foldl roundFn H
  ⟨w32 (H.a + s.a), w32 (H.b + s.b), w32 (H.c + s.c), w32 (H.d + s.d),
   w32 (H.e + s.e), w32 (H.f + s.f), w32 (H.g + s.g), w32 (H.h + s.h)⟩

/-- Split a list into 64-element blocks; `fuel` bounds the recursion and
is instantiated with the list length. -/
def splitBlocks : Nat → List Nat → List (List Nat)
  | 0, _ => []
  | fuel + 1, l => if l.isEmpty then [] else l.take 64 :: splitBlocks fuel (l.drop 64)

/-- SHA-256 padding: append `0x80`, zeros, and the 64-bit big-endian bit
length, reaching a multiple of 64 bytes. -/
def sha256Pad (msg : List Nat) : List Nat :=
  msg ++ 128 :: List.replicate ((64 - (msg.length + 9) % 64) % 64) 0 ++
    bytesBE 8 (8 * msg.length)

/-- Serialise the final hash state as 32 big-endian bytes. -/
def hashBytes (H : Hash8) : List Nat :=
  bytesBE 4 H.a ++ bytesBE 4 H.b ++ bytesBE 4 H.c ++ bytesBE 4 H.d ++
  bytesBE 4 H.e ++ bytesBE 4 H.f ++ bytesBE 4 H.g ++ bytesBE 4 H.h

/-- SHA-256 of a byte list. -/
def sha256 (msg : List Nat) : List Nat :=
  let padded := sha256Pad msg
  hashBytes ((splitBlocks padded.length padded).foldl compress initH)

/-! ## HMAC-SHA256 (RFC 2104) and base64 -/

/-- HMAC-SHA256 with byte-list key and message. -/
def hmacSha256 (key msg : List Nat) : List Nat :=
  let k0 := if key.length > 64 then sha256 key else key
  let k1 := k0 ++ List.replicate (64 - k0.length) 0
  let ipad := k1.map (fun b => xorBits 8 b 54)
  let opad := k1.map (fun b => xorBits 8 b 92)
  sha256 (opad ++ sha256 (ipad ++ msg))

def base64Chars : List Char :=
  "ABCDEFGHIJKLMNOPQRSTUVWXYZabcdefghijklmnopqrstuvwxyz0123456789+/".data

def b64Char (n : Nat) : Char := base64Chars.getD n 'A'

/-- Standard base64 encoding with padding, on byte lists. -/
def base64Encode : List Nat → List Char
  | [] => []
  | [b0] => [b64Char (b0 / 4), b64Char (b0 % 4 * 16), '=', '=']
  | [b0, b1] => [b64Char (b0 / 4), b64Char (b0 % 4 * 16 + b1 / 16),
                 b64Char (b1 % 16 * 4), '=']
  | b0 :: b1 :: b2 :: rest =>
      b64Char (b0 / 4) :: b64Char (b0 % 4 * 16 + b1 / 16) ::
      b64Char (b1 % 16 * 4 + b2 / 64) :: b64Char (b2 % 64) :: base64Encode rest

/-- UTF-8 encoding of a single character (Node's default string
encoding for `crypto.update`). -/
def utf8EncodeChar (c : Char) : List Nat :=
  let n := c.toNat
  if n < 128 then [n]
  else if n < 2048 then [192 + n / 64, 128 + n % 64]
  else if n < 65536 then [224 + n / 4096, 128 + (n / 64) % 64, 128 + n % 64]
  else [240 + n / 262144, 128 + (n / 4096) % 64, 128 + (n / 64) % 64, 128 + n % 64]

/-- UTF-8 byte encoding of a string. -/
def strToBytes (s : String) : List Nat := (s.data.map utf8EncodeChar).flatten

/-- The handler's signature creation
(`crypto.createHmac("sha256", secret).update(body).digest("base64")`);
the read of the `LINE_CHANNEL_SECRET` environment variable becomes the
explicit `secret` parameter. -/
def createSignature (secret body : String) : String :=
  String.mk (base64Encode (hmacSha256 (strToBytes secret) (strToBytes body)))

/-- The handler's signature verification: plain string equality with the
freshly computed signature. -/
def validateSignature (secret signature body : String) : Bool :=
  signature == createSignature secret body

/-- Big-endian value of a byte list. -/
def natOfBytes : List Nat → Nat
  | [] => 0
  | b :: t => b * 256 ^ t.length + natOfBytes t

/-- A family of pairwise distinct bodies. -/
def mkBody (n : Nat) : String := String.mk (List.replicate n 'a')

/-- The digest of `mkBody n`, packed into the finite type of 32-byte
values (the reduction is the identity on genuine digests). -/
def sigValue (secret : String) (n : Nat) : Fin (256 ^ 32) :=
  ⟨natOfBytes (hmacSha256 (strToBytes secret) (strToBytes (mkBody n))) % 256 ^ 32,
   Nat.mod_lt _ (by positivity)⟩

/-! ## Environment validation (`validateEnvVars`)

`process.env` is modelled as a record of optional values. The fifth
field, `DIFY_API_KEY`, is listed as required by the repository README
but is not among the names `validateEnvVars` checks; it is carried here
so that statements about it can be made. -/

structure Env where
  lineChannelAccessToken : Option String
  lineChannelSecret : Option String
  lstepWebhookUrl : Option String
  difyLineBotEndpoint : Option String
  difyApiKey : Option String

/-- JS falsiness of `process.env[key]`: missing or the empty string. -/
def envFalsy : Option String → Bool
  | none => true
  | some s => s.isEmpty

/-- The lookup `process.env[key]` for the names the handler mentions. -/
def envLookup (env : Env) (k : String) : Option String :=
  if k = "LINE_CHANNEL_ACCESS_TOKEN" then env.lineChannelAccessToken
  else if k = "LINE_CHANNEL_SECRET" then env.lineChannelSecret
  else if k = "LSTEP_WEBHOOK_URL" then env.lstepWebhookUrl
  else if k = "DIFY_LINE_BOT_ENDPOINT" then env.difyLineBotEndpoint
  else if k = "DIFY_API_KEY" then env.difyApiKey
  else none

/-- The four names in the handler's `required` list. -/
def requiredEnvKeys : List String :=
  ["LINE_CHANNEL_ACCESS_TOKEN", "LINE_CHANNEL_SECRET",
   "LSTEP_WEBHOOK_URL", "DIFY_LINE_BOT_ENDPOINT"]

/-- `validateEnvVars`: true when no required name is missing. -/
def validateEnvVars (env : Env) : Bool :=
  let missing := requiredEnvKeys.filter (fun k => envFalsy (envLookup env k))
  if missing.length > 0 then false else true

/-! ## Header sanitisation (`prepareLINEHeaders`)

The JS header object is modelled as an association list with the JS
assignment semantics: assigning to an existing key overwrites it in
place, otherwise the entry is appended; `delete` removes the exact
key. -/

def objSet (m : List (String × String)) (k v : String) : List (String × String) :=
  if m.any (fun p => p.1 == k) then
    m.map (fun p => if p.1 == k then (k, v) else p)
  else
    m ++ [(k, v)]

def objDelete (m : List (String × String)) (k : String) : List (String × String) :=
  m.filter (fun p => p.1 != k)

/-- Property access `obj[k]`. -/
def headerLookup (m : List (String × String)) (k : String) : Option String :=
  (m.find? (fun p => p.1 == k)).map Prod.snd

/-- The copy-through test on a header name: case-insensitively starts
with the upstream prefix "x-line-", is not the signature header, and
contains none of "forwarded", "host", "proxy". -/
def lineForwardCond (k : String) : Bool :=
  let lowerKey := lowerStr k
  strStartsWith lowerKey "x-line-" && lowerKey != "x-line-signature" &&
    !(strContains lowerKey "forwarded") && !(strContains lowerKey "host") &&
    !(strContains lowerKey "proxy")

/-- The `Object.keys(headers).forEach` copy loop. -/
def copyLineHeaders (acc : List (String × String)) :
    List (String × String) → List (String × String)
  | [] => acc
  | (k, v) :: t =>
      copyLineHeaders (if lineForwardCond k then objSet acc k v else acc) t

/-- The fixed blacklist of transport and proxy headers. -/
def blacklistedHeaders : List String :=
  ["host", "referer", "origin",
   "x-forwarded-for", "x-forwarded-host", "x-forwarded-proto",
   "x-real-ip", "x-vercel-id", "x-vercel-cache",
   "cf-ray", "cf-connecting-ip"]

/-- The `blacklistedHeaders.forEach` delete loop: each name is removed
both as written and uppercased. -/
def deleteHeaders (m : List (String × String)) :
    List String → List (String × String)
  | [] => m
  | k :: t => deleteHeaders (objDelete (objDelete m k) (upperStr k)) t

/-- The seeded defaults of `prepareLINEHeaders`. -/
def defaultForwardHeaders : List (String × String) :=
  [("Content-Type", "application/json"),
   ("User-Agent", "LineBotWebhook/1.0"),
   ("Accept", "application/json"),
   ("Cache-Control", "no-cache")]

/-- `prepareLINEHeaders(includeSignature)` from the most mature handler
revision: seed defaults, optionally set the signature, copy selected
x-line headers, then delete the blacklist. -/
def prepareLINEHeaders (headers : List (String × String))
    (originalSignature : String) (includeSignature : Bool) :
    List (String × String) :=
  let seeded :=
    if includeSignature then
      objSet defaultForwardHeaders "X-Line-Signature" originalSignature
    else defaultForwardHeaders
  deleteHeaders (copyLineHeaders seeded headers) blacklistedHeaders

/-! ## The POST handler -/

/-- An inbound POST request: the header record as the framework exposes
it, and the raw body text. -/
structure Request where
  headers : List (String × String)
  rawBody : String

/-- One outbound `fetch` POST issued by a forward function. -/
structure OutboundCall where
  url : String
  headers : List (String × String)
  body : String
deriving DecidableEq

/-- What the downstream does with a forwarded call. -/
inductive FetchOutcome
  | ok (status : Nat)
  | timeout
  | networkError
deriving DecidableEq

/-- What a forward function observes (and logs) for its call; every
constructor is produced inside the forward's own try/catch, so nothing
escapes. -/
inductive ForwardResult
  | success (status : Nat)
  | httpError (status : Nat)
  | timedOut
  | failed
deriving DecidableEq

/-- The branch structure of `forwardToLStep` / `forwardToDify`:
`res.ok` splits 2xx from the rest, `AbortError` is the timeout branch,
anything else is the generic catch. -/
def forwardResult : FetchOutcome → ForwardResult
  | .ok s => if 200 ≤ s && s < 300 then .success s else .httpError s
  | .timeout => .timedOut
  | .networkError => .failed

/-- The handler's own HTTP response together with its observable
outbound behaviour. -/
structure HandlerResult where
  httpStatus : Nat
  bodyStatus : Nat
  calls : List OutboundCall
  forwardResults : List ForwardResult
deriving DecidableEq

/-- The POST handler of the most mature revision: validate the
environment, read the raw body and the signature header, verify the
signature, then forward the raw body to both destinations with
per-destination headers under `Promise.allSettled`, and answer
status 200. The two downstream outcomes `o1`, `o2` parametrise what
the destinations do and are swallowed by the forwards' catch blocks. -/
def handlePost (env : Env) (req : Request) (o1 o2 : FetchOutcome) :
    HandlerResult :=
  if validateEnvVars env = false then
    { httpStatus := 500, bodyStatus := 500, calls := [], forwardResults := [] }
  else
    let rawBody := req.rawBody
    let originalSignature := (headerLookup req.headers "x-line-signature").getD ""
    if validateSignature (env.lineChannelSecret.getD "") originalSignature rawBody = false then
      { httpStatus := 401, bodyStatus := 401, calls := [], forwardResults := [] }
    else
      { httpStatus := 200, bodyStatus := 200,
        calls :=
          [{ url := env.lstepWebhookUrl.getD "",
             headers := prepareLINEHeaders req.headers originalSignature true,
             body := rawBody },
           { url := env.difyLineBotEndpoint.getD "",
             headers := prepareLINEHeaders req.headers originalSignature false,
             body := rawBody }],
        forwardResults := [forwardResult o1, forwardResult o2] }

/-! ## Event dispatcher and media pipeline

The README and the design spec document a per-event dispatcher (bracket
filter) and a media pipeline, but their implementation is not among the
provided source files; the definitions below are modelled from the
spec. -/

/-- Whitespace for trimming purposes. -/
def isWsChar (c : Char) : Bool :=
  c == ' ' || c == '\t' || c == '\n' || c == '\r'

/-- Trim whitespace from both ends of a character list. -/
def trimChars (l : List Char) : List Char :=
  ((l.dropWhile isWsChar).reverse.dropWhile isWsChar).reverse

/-- Modelled from the spec: the bracket filter of the Event Dispatcher
(spec 4.3, whose implementation is not among the provided source
files). The check is on the literal first and last character of the
trimmed text, and a minimum length of 2 keeps one character from being
counted as both ends. -/
def isExclusiveToFirstDownstream (text : String) : Bool :=
  let t := trimChars text.data
  decide (2 ≤ t.length) && (t.headD ' ' == '【') && (t.getLastD ' ' == '】')

inductive MessageContent
  | text (s : String)
  | image (id : String)
  | audio (id : String)
  | video (id : String)
  | file (id : String)
  | other
deriving DecidableEq

inductive InboundEvent
  | message (replyToken : String) (content : MessageContent)
  | nonMessage
deriving DecidableEq

structure InboundEnvelope where
  destination : String
  events : List InboundEvent
  rawBody : String

/-- Observable dispatch decisions for one inbound envelope. -/
inductive DispatchAction
  | forwardRawToFirst (body : String)
  | forwardRawToSecond (body : String)
  | runMediaPipeline (messageId : String) (replyToken : String)
deriving DecidableEq

/-- Modelled from the spec: per-event dispatch (spec 4.3, whose
implementation is not among the provided source files). Text messages
pass the bracket filter before the per-event forward of the verbatim
raw envelope body to the second downstream; media messages go to the
media pipeline; everything else is a no-op. -/
def dispatchEvent (rawBody : String) : InboundEvent → List DispatchAction
  | .message _ (.text s) =>
      if isExclusiveToFirstDownstream s then [] else [.forwardRawToSecond rawBody]
  | .message rt (.image id) => [.runMediaPipeline id rt]
  | .message rt (.audio id) => [.runMediaPipeline id rt]
  | .message rt (.video id) => [.runMediaPipeline id rt]
  | .message rt (.file id) => [.runMediaPipeline id rt]
  | .message _ .other => []
  | .nonMessage => []

/-- Modelled from the spec: envelope-level dispatch — the whole-envelope
forward to the first downstream always carries the raw body (spec 4.4),
and each event is dispatched independently (spec 4.3). -/
def dispatchEnvelope (envp : InboundEnvelope) : List DispatchAction :=
  .forwardRawToFirst envp.rawBody ::
    (envp.events.map (dispatchEvent envp.rawBody)).flatten

/-- The outcomes the media pipeline's collaborators can produce for one
event: the fetched blob, the staging upload, and the processor
answer. -/
structure MediaCollaborators where
  fetched : Option (List Nat × String)
  stagedUrl : Option String
  processorAnswer : Option String

/-- Observable steps of one event's media pipeline. -/
inductive MediaAction
  | fetchContent (messageId : String)
  | stageUpload (messageId : String)
  | processorRequest (stagedUrl : String)
  | deleteStaged (messageId : String)
  | sendReply (replyToken : String) (text : String)
deriving DecidableEq

/-- Modelled from the spec: the media pipeline (spec 4.5, whose
implementation is not among the provided source files) — fetch, stage,
process, cleanup, reply, terminal on the first failed step; a missing
processor answer is replaced by the fixed fallback text. -/
def mediaPipeline (collab : MediaCollaborators)
    (messageId replyToken : String) : List MediaAction :=
  match collab.fetched with
  | none => [.fetchContent messageId]
  | some _ =>
    match collab.stagedUrl with
    | none => [.fetchContent messageId, .stageUpload messageId]
    | some url =>
        [.fetchContent messageId, .stageUpload messageId,
         .processorRequest url, .deleteStaged messageId,
         .sendReply replyToken (collab.processorAnswer.getD "file analysis failed")]

/-- Modelled from the spec: per-event isolation (spec 4.5) — the
envelope's media events are processed each from its own collaborators'
outcomes, and the webhook's own response stays 200 once verification
has passed, regardless of those outcomes. The first component is the
response, the second the per-event traces. -/
def processMediaEvents (collab : String → MediaCollaborators)
    (events : List (String × String)) : Nat × List (List MediaAction) :=
  (200, events.map (fun e => mediaPipeline (collab e.1) e.1 e.2))

/-! ## Concrete instances used by the witnesses -/

/-- A fully configured environment. -/
def envW : Env :=
  ⟨some "tok", some "secret", some "https://one.example",
   some "https://two.example", some "apikey"⟩

/-- A request carrying a valid signature for its body. -/
def reqSigned : Request :=
  ⟨[("x-line-signature", createSignature "secret" "hello")], "hello"⟩

/-- A request carrying a wrong signature. -/
def reqBogus : Request :=
  ⟨[("x-line-signature", "bogus")], "hello"⟩

/-- A request carrying no signature header at all. -/
def reqNoSig : Request :=
  ⟨[("content-type", "application/json")], "hello"⟩

/-! ## Shape lemmas for the digest and the base64 form -/

theorem bytesBE_length (k n : Nat) : (bytesBE k n).length = k := by
  induction k generalizing n with
  | zero => rfl
  | succ k ih => simp [bytesBE, ih]

theorem bytesBE_lt (k n : Nat) : ∀ b ∈ bytesBE k n, b < 256 := by
  induction k generalizing n with
  | zero => intro b hb; simp [bytesBE] at hb
  | succ k ih =>
    intro b hb
    simp only [bytesBE, List.mem_append, List.mem_singleton] at hb
    rcases hb with hb | hb
    · exact ih _ b hb
    · subst hb; exact Nat.mod_lt _ (by omega)

theorem hashBytes_length (H : Hash8) : (hashBytes H).length = 32 := by
  simp [hashBytes, bytesBE_length]

theorem hashBytes_lt (H : Hash8) : ∀ b ∈ hashBytes H, b < 256 := by
  intro b hb
  simp only [hashBytes, List.mem_append] at hb
  rcases hb with ((((((h | h) | h) | h) | h) | h) | h) | h <;>
    exact bytesBE_lt _ _ b h

theorem sha256_length (m : List Nat) : (sha256 m).length = 32 :=
  hashBytes_length _

theorem sha256_lt (m : List Nat) : ∀ b ∈ sha256 m, b < 256 :=
  hashBytes_lt _

theorem hmacSha256_length (k m : List Nat) : (hmacSha256 k m).length = 32 :=
  sha256_length _

theorem hmacSha256_lt (k m : List Nat) : ∀ b ∈ hmacSha256 k m, b < 256 :=
  sha256_lt _

theorem base64Encode_length_aux :
    ∀ (n : Nat) (l : List Nat), l.length ≤ n →
      (base64Encode l).length = 4 * ((l.length + 2) / 3) := by
  intro n
  induction n with
  | zero =>
    intro l h
    have hl : l = [] := List.eq_nil_of_length_eq_zero (Nat.le_zero.mp h)
    subst hl; rfl
  | succ n ih =>
    intro l h
    rcases l with _ | ⟨b0, _ | ⟨b1, _ | ⟨b2, rest⟩⟩⟩
    · simp [base64Encode]
    · simp [base64Encode]
    · simp [base64Encode]
    · have hr : rest.length ≤ n := by
        simp only [List.length_cons] at h; omega
      simp only [base64Encode, List.length_cons, ih rest hr]
      omega

theorem base64Encode_length (l : List Nat) :
    (base64Encode l).length = 4 * ((l.length + 2) / 3) :=
  base64Encode_length_aux l.length l (Nat.le_refl _)

theorem string_mk_length (l : List Char) : (String.mk l).length = l.length := rfl

/-- Every signature the handler computes is a 44-character base64
string. -/
theorem createSignature_length (secret body : String) :
    (createSignature secret body).length = 44 := by
  unfold createSignature
  rw [string_mk_length, base64Encode_length, hmacSha256_length]

/-- A string whose length is not 44 never verifies. -/
theorem validateSignature_false_of_length (secret signature body : String)
    (h : signature.length ≠ 44) : validateSignature secret signature body = false := by
  unfold validateSignature
  rw [beq_eq_false_iff_ne]
  intro he
  exact h (he ▸ createSignature_length secret body)

/-! ## Collisions: the MAC cannot be injective

The handler's MAC maps arbitrarily long bodies into 32-byte digests, so
by the pigeonhole principle two distinct bodies share a signature. -/

theorem natOfBytes_lt (l : List Nat) (h : ∀ b ∈ l, b < 256) :
    natOfBytes l < 256 ^ l.length := by
  induction l with
  | nil => simp [natOfBytes]
  | cons b t ih =>
    have hb : b < 256 := h b (List.mem_cons_self _ _)
    have ht : natOfBytes t < 256 ^ t.length :=
      ih (fun x hx => h x (List.mem_cons_of_mem _ hx))
    simp only [natOfBytes, List.length_cons, pow_succ]
    calc b * 256 ^ t.length + natOfBytes t
        < b * 256 ^ t.length + 256 ^ t.length := by omega
      _ = (b + 1) * 256 ^ t.length := by ring
      _ ≤ 256 * 256 ^ t.length := by
          exact Nat.mul_le_mul_right _ (by omega)
      _ = 256 ^ t.length * 256 := by ring

theorem natOfBytes_inj : ∀ l1 l2 : List Nat, l1.length = l2.length →
    (∀ b ∈ l1, b < 256) → (∀ b ∈ l2, b < 256) →
    natOfBytes l1 = natOfBytes l2 → l1 = l2 := by
  intro l1
  induction l1 with
  | nil =>
    intro l2 hlen _ _ _
    cases l2 with
    | nil => rfl
    | cons b t => simp at hlen
  | cons b1 t1 ih =>
    intro l2 hlen h1 h2 hv
    cases l2 with
    | nil => simp at hlen
    | cons b2 t2 =>
      simp only [List.length_cons] at hlen
      have hlen' : t1.length = t2.length := by omega
      have hb1 : b1 < 256 := h1 b1 (List.mem_cons_self _ _)
      have hb2 : b2 < 256 := h2 b2 (List.mem_cons_self _ _)
      have ht1 : natOfBytes t1 < 256 ^ t1.length :=
        natOfBytes_lt t1 (fun x hx => h1 x (List.mem_cons_of_mem _ hx))
      have ht2 : natOfBytes t2 < 256 ^ t2.length :=
        natOfBytes_lt t2 (fun x hx => h2 x (List.mem_cons_of_mem _ hx))
      simp only [natOfBytes, hlen'] at hv
      have hNpos : 0 < 256 ^ t2.length := pow_pos (by omega) _
      have key : ∀ b v : Nat, v < 256 ^ t2.length →
          (v + b * 256 ^ t2.length) / 256 ^ t2.length = b := by
        intro b v hvlt
        rw [Nat.add_mul_div_right _ _ hNpos, Nat.div_eq_of_lt hvlt, Nat.zero_add]
      have hv2 : natOfBytes t1 + b1 * 256 ^ t2.length =
          natOfBytes t2 + b2 * 256 ^ t2.length := by
        rw [Nat.add_comm (natOfBytes t1), Nat.add_comm (natOfBytes t2)]
        exact hv
      have e1 := key b1 (natOfBytes t1) (hlen' ▸ ht1)
      have e2 := key b2 (natOfBytes t2) ht2
      have hbeq : b1 = b2 := by
        have := congrArg (fun x => x / 256 ^ t2.length) hv2
        simpa [e1, e2] using this
      subst hbeq
      have hveq : natOfBytes t1 = natOfBytes t2 := Nat.add_left_cancel hv
      have hteq : t1 = t2 :=
        ih t2 hlen' (fun x hx => h1 x (List.mem_cons_of_mem _ hx))
          (fun x hx => h2 x (List.mem_cons_of_mem _ hx)) hveq
      rw [hteq]


/-- Pigeonhole: the signature function maps infinitely many bodies into
finitely many digests, so it is not injective. -/
theorem createSignature_not_injective (secret : String) :
    ∃ B1 B2 : String, B1 ≠ B2 ∧
      createSignature secret B1 = createSignature secret B2 := by
  obtain ⟨n, m, hnm, heq⟩ := Finite.exists_ne_map_eq_of_infinite (sigValue secret)
  refine ⟨mkBody n, mkBody m, ?_, ?_⟩
  · intro h
    apply hnm
    have hd : (mkBody n).data = (mkBody m).data := congrArg String.data h
    simpa [mkBody] using congrArg List.length hd
  · have hlen2 : (hmacSha256 (strToBytes secret) (strToBytes (mkBody n))).length =
        (hmacSha256 (strToBytes secret) (strToBytes (mkBody m))).length := by
      rw [hmacSha256_length, hmacSha256_length]
    have hval0 := congrArg Fin.val heq
    simp only [sigValue] at hval0
    have hmod : ∀ k : Nat,
        natOfBytes (hmacSha256 (strToBytes secret) (strToBytes (mkBody k))) % 256 ^ 32 =
          natOfBytes (hmacSha256 (strToBytes secret) (strToBytes (mkBody k))) := by
      intro k
      apply Nat.mod_eq_of_lt
      have h := natOfBytes_lt _ (hmacSha256_lt (strToBytes secret) (strToBytes (mkBody k)))
      rwa [hmacSha256_length] at h
    rw [hmod n, hmod m] at hval0
    have hval : natOfBytes (hmacSha256 (strToBytes secret) (strToBytes (mkBody n))) =
        natOfBytes (hmacSha256 (strToBytes secret) (strToBytes (mkBody m))) := hval0
    have hdig := natOfBytes_inj _ _ hlen2 (hmacSha256_lt _ _) (hmacSha256_lt _ _) hval
    unfold createSignature
    rw [hdig]


/-! ## Membership lemmas for the header object operations -/

theorem objSet_mem {m : List (String × String)} {k v : String}
    {p : String × String} (hp : p ∈ objSet m k v) : p = (k, v) ∨ p ∈ m := by
  unfold objSet at hp
  by_cases hany : m.any (fun q => q.1 == k) = true
  · rw [if_pos hany] at hp
    obtain ⟨q, hq, hfq⟩ := List.mem_map.mp hp
    by_cases hqk : (q.1 == k) = true
    · rw [if_pos hqk] at hfq
      exact Or.inl hfq.symm
    · rw [if_neg hqk] at hfq
      exact Or.inr (hfq ▸ hq)
  · rw [if_neg hany] at hp
    rcases List.mem_append.mp hp with h | h
    · exact Or.inr h
    · exact Or.inl (by simpa using h)

theorem objDelete_mem {m : List (String × String)} {k : String}
    {p : String × String} (hp : p ∈ objDelete m k) :
    p ∈ m ∧ (p.1 == k) = false := by
  unfold objDelete at hp
  have h := List.mem_filter.mp hp
  refine ⟨h.1, ?_⟩
  simpa [bne] using h.2

theorem copyLineHeaders_mem : ∀ (hs : List (String × String))
    (acc : List (String × String)) (p : String × String),
    p ∈ copyLineHeaders acc hs →
    p ∈ acc ∨ (lineForwardCond p.1 = true ∧ p ∈ hs) := by
  intro hs
  induction hs with
  | nil => intro acc p hp; exact Or.inl hp
  | cons q t ih =>
    intro acc p hp
    obtain ⟨k, v⟩ := q
    simp only [copyLineHeaders] at hp
    rcases ih _ p hp with hacc | ⟨hc, hmem⟩
    · by_cases hck : lineForwardCond k = true
      · rw [if_pos hck] at hacc
        rcases objSet_mem hacc with hkv | hin
        · subst hkv
          exact Or.inr ⟨hck, List.mem_cons_self _ _⟩
        · exact Or.inl hin
      · rw [if_neg hck] at hacc
        exact Or.inl hacc
    · exact Or.inr ⟨hc, List.mem_cons_of_mem _ hmem⟩

theorem deleteHeaders_mem : ∀ (ks : List String)
    (m : List (String × String)) (p : String × String),
    p ∈ deleteHeaders m ks → p ∈ m := by
  intro ks
  induction ks with
  | nil => intro m p hp; exact hp
  | cons k t ih =>
    intro m p hp
    simp only [deleteHeaders] at hp
    exact (objDelete_mem (objDelete_mem (ih _ p hp)).1).1

/-- Every entry of the sanitiser's output is a seeded default, the
signature entry (when included), or an inbound entry passing the
copy-through test. -/
theorem prepareLINEHeaders_mem (headers : List (String × String))
    (sig : String) (inc : Bool) (p : String × String)
    (hp : p ∈ prepareLINEHeaders headers sig inc) :
    p ∈ defaultForwardHeaders ∨ (inc = true ∧ p = ("X-Line-Signature", sig)) ∨
      (lineForwardCond p.1 = true ∧ p ∈ headers) := by
  unfold prepareLINEHeaders at hp
  have h1 := deleteHeaders_mem _ _ _ hp
  rcases copyLineHeaders_mem _ _ _ h1 with hseed | ⟨hc, hmem⟩
  · cases inc with
    | true =>
      rw [if_pos rfl] at hseed
      rcases objSet_mem hseed with hkv | hdef
      · exact Or.inr (Or.inl ⟨rfl, hkv⟩)
      · exact Or.inl hdef
    | false =>
      exact Or.inl (by simpa using hseed)
  · exact Or.inr (Or.inr ⟨hc, hmem⟩)

/-! ## Blacklist safety facts -/

theorem blacklist_no_line_start : ∀ s ∈ blacklistedHeaders,
    strStartsWith s "x-line-" = false := by decide

theorem defaults_lower_safe : ∀ p ∈ defaultForwardHeaders,
    lowerStr p.1 ∉ blacklistedHeaders := by decide

theorem sig_lower_safe : lowerStr "X-Line-Signature" ∉ blacklistedHeaders := by
  decide

theorem lower_line_not_blacklisted {s : String}
    (h : strStartsWith s "x-line-" = true) : s ∉ blacklistedHeaders := by
  intro hs
  have hf := blacklist_no_line_start s hs
  rw [h] at hf
  exact Bool.noConfusion hf

theorem lineForwardCond_starts (k : String) (hc : lineForwardCond k = true) :
    strStartsWith (lowerStr k) "x-line-" = true := by
  simp only [lineForwardCond, Bool.and_eq_true] at hc
  exact hc.1.1.1.1

theorem lineForwardCond_not_sig_lower (k : String)
    (hc : lineForwardCond k = true) :
    (lowerStr k == "x-line-signature") = false := by
  simp only [lineForwardCond, Bool.and_eq_true] at hc
  have h := hc.1.1.1.2
  simpa [bne] using h

/-! ## Lookup-preservation lemmas for the signature header -/

theorem lookup_map_objSetFn : ∀ (m : List (String × String)) (k0 v k : String),
    (k0 == k) = false →
    headerLookup (m.map (fun p => if p.1 == k0 then (k0, v) else p)) k =
      headerLookup m k := by
  intro m k0 v k hne
  induction m with
  | nil => rfl
  | cons q t ih =>
    simp only [List.map_cons]
    by_cases hq0 : (q.1 == k0) = true
    · rw [if_pos hq0]
      have hqk : (q.1 == k) = false := by
        have : q.1 = k0 := eq_of_beq hq0
        rw [this]; exact hne
      unfold headerLookup
      rw [List.find?_cons_of_neg _ (by simp [hne]),
        List.find?_cons_of_neg _ (by simp [hqk])]
      exact ih
    · rw [if_neg hq0]
      by_cases hqk : (q.1 == k) = true
      · unfold headerLookup
        rw [List.find?_cons_of_pos _ (by simpa using hqk),
          List.find?_cons_of_pos _ (by simpa using hqk)]
      · unfold headerLookup
        rw [List.find?_cons_of_neg _ (by simp [hqk]),
          List.find?_cons_of_neg _ (by simp [hqk])]
        exact ih

theorem lookup_append_single : ∀ (m : List (String × String)) (k0 v k : String),
    (k0 == k) = false →
    headerLookup (m ++ [(k0, v)]) k = headerLookup m k := by
  intro m k0 v k hne
  induction m with
  | nil =>
    unfold headerLookup
    rw [List.nil_append, List.find?_cons_of_neg _ (by simp [hne])]
  | cons q t ih =>
    rw [List.cons_append]
    by_cases hqk : (q.1 == k) = true
    · unfold headerLookup
      rw [List.find?_cons_of_pos _ (by simpa using hqk),
        List.find?_cons_of_pos _ (by simpa using hqk)]
    · unfold headerLookup
      rw [List.find?_cons_of_neg _ (by simp [hqk]),
        List.find?_cons_of_neg _ (by simp [hqk])]
      exact ih

theorem objSet_lookup_other (m : List (String × String)) (k0 v k : String)
    (hne : (k0 == k) = false) :
    headerLookup (objSet m k0 v) k = headerLookup m k := by
  unfold objSet
  by_cases hany : m.any (fun q => q.1 == k0) = true
  · rw [if_pos hany]
    exact lookup_map_objSetFn m k0 v k hne
  · rw [if_neg hany]
    exact lookup_append_single m k0 v k hne

theorem objDelete_lookup_other (m : List (String × String)) (k0 k : String)
    (hne : (k0 == k) = false) :
    headerLookup (objDelete m k0) k = headerLookup m k := by
  unfold objDelete
  induction m with
  | nil => rfl
  | cons q t ih =>
    simp only [List.filter_cons]
    by_cases hq0 : (q.1 != k0) = true
    · rw [if_pos hq0]
      by_cases hqk : (q.1 == k) = true
      · unfold headerLookup
        rw [List.find?_cons_of_pos _ (by simpa using hqk),
          List.find?_cons_of_pos _ (by simpa using hqk)]
      · unfold headerLookup
        rw [List.find?_cons_of_neg _ (by simp [hqk]),
          List.find?_cons_of_neg _ (by simp [hqk])]
        exact ih
    · rw [if_neg hq0]
      have hq0' : q.1 = k0 := by
        have : (q.1 == k0) = true := by
          rcases h : q.1 == k0 with _ | _
          · exact absurd (by simp [bne, h]) hq0
          · rfl
        exact eq_of_beq this
      have hqk : (q.1 == k) = false := by rw [hq0']; exact hne
      unfold headerLookup
      rw [List.find?_cons_of_neg _ (by simp [hqk])]
      exact ih

theorem copyLineHeaders_lookup_sig : ∀ (hs acc : List (String × String)),
    headerLookup (copyLineHeaders acc hs) "X-Line-Signature" =
      headerLookup acc "X-Line-Signature" := by
  intro hs
  induction hs with
  | nil => intro acc; rfl
  | cons q t ih =>
    intro acc
    obtain ⟨k, v⟩ := q
    simp only [copyLineHeaders]
    rw [ih]
    by_cases hck : lineForwardCond k = true
    · rw [if_pos hck]
      have hne : (k == "X-Line-Signature") = false := by
        by_cases hk : k = "X-Line-Signature"
        · subst hk
          exact absurd hck (by decide)
        · exact beq_eq_false_iff_ne.mpr hk
      exact objSet_lookup_other acc k v _ hne
    · rw [if_neg hck]

theorem defaults_not_sig : ∀ p ∈ defaultForwardHeaders,
    lowerStr p.1 ≠ "x-line-signature" := by decide

theorem blacklist_keys_not_sig : ∀ h ∈ blacklistedHeaders,
    (h == "X-Line-Signature") = false ∧
      (upperStr h == "X-Line-Signature") = false := by decide

theorem deleteHeaders_lookup_sig : ∀ (ks : List String)
    (m : List (String × String)),
    (∀ h ∈ ks, (h == "X-Line-Signature") = false ∧
      (upperStr h == "X-Line-Signature") = false) →
    headerLookup (deleteHeaders m ks) "X-Line-Signature" =
      headerLookup m "X-Line-Signature" := by
  intro ks
  induction ks with
  | nil => intro m _; rfl
  | cons k t ih =>
    intro m hk
    simp only [deleteHeaders]
    have hhead := hk k (List.mem_cons_self _ _)
    rw [ih _ (fun h hh => hk h (List.mem_cons_of_mem _ hh)),
      objDelete_lookup_other _ _ _ hhead.2,
      objDelete_lookup_other _ _ _ hhead.1]

/-- Destination 1 headers: the signature entry is present with the
original inbound signature value. -/
theorem prepare_sig_lookup (headers : List (String × String)) (sig : String) :
    headerLookup (prepareLINEHeaders headers sig true) "X-Line-Signature" =
      some sig := by
  unfold prepareLINEHeaders
  rw [if_pos rfl, deleteHeaders_lookup_sig _ _ blacklist_keys_not_sig,
    copyLineHeaders_lookup_sig]
  unfold objSet headerLookup defaultForwardHeaders
  simp [List.find?]

/-- Destination 2 headers: no entry's name is, up to case, the
signature header. -/
theorem prepare_no_sig (headers : List (String × String)) (sig : String)
    (p : String × String) (hp : p ∈ prepareLINEHeaders headers sig false) :
    lowerStr p.1 ≠ "x-line-signature" := by
  rcases prepareLINEHeaders_mem headers sig false p hp with
    hdef | ⟨hinc, _⟩ | ⟨hc, _⟩
  · exact defaults_not_sig p hdef
  · exact Bool.noConfusion hinc
  · intro he
    have hf := lineForwardCond_not_sig_lower p.1 hc
    rw [he] at hf
    simp at hf

/-! ## Helper facts for the witnesses -/

theorem envW_valid : validateEnvVars envW = true := by decide

theorem reqSigned_sig_valid :
    validateSignature (envW.lineChannelSecret.getD "")
      ((headerLookup reqSigned.headers "x-line-signature").getD "")
      reqSigned.rawBody = true := by
  show (createSignature "secret" "hello" == createSignature "secret" "hello") = true
  simp

/-! ## The claims -/

/-- C1: for every POST request that passes the configuration check and
the signature verification, the handler answers HTTP 200 with body
status 200 for every combination of downstream outcomes; the forwards
observe the outcomes (success, non-2xx, timeout, network error) inside
their own try/catch, and none of them changes the handler's response. -/
theorem handler_always_200_after_verification
    (env : Env) (req : Request) (o1 o2 : FetchOutcome)
    (henv : validateEnvVars env = true)
    (hsig : validateSignature (env.lineChannelSecret.getD "")
      ((headerLookup req.headers "x-line-signature").getD "") req.rawBody = true) :
    (handlePost env req o1 o2).httpStatus = 200 ∧
      (handlePost env req o1 o2).bodyStatus = 200 ∧
      (handlePost env req o1 o2).forwardResults =
        [forwardResult o1, forwardResult o2] := by
  simp [handlePost, henv, hsig]

/-- Witness for C1: destination 1 times out while destination 2 answers
200, and the response is still 200. -/
theorem handler_always_200_witness :
    (handlePost envW reqSigned FetchOutcome.timeout (FetchOutcome.ok 200)).httpStatus = 200 ∧
      (handlePost envW reqSigned FetchOutcome.timeout (FetchOutcome.ok 200)).bodyStatus = 200 := by
  have h := handler_always_200_after_verification envW reqSigned
    FetchOutcome.timeout (FetchOutcome.ok 200) envW_valid reqSigned_sig_valid
  exact ⟨h.1, h.2.1⟩

/-- C2: a POST whose signature header does not equal the base64 HMAC of
the raw body under the configured secret is answered 401 and no
outbound call is issued. -/
theorem invalid_signature_401_no_forward
    (env : Env) (req : Request) (o1 o2 : FetchOutcome)
    (henv : validateEnvVars env = true)
    (hsig : (headerLookup req.headers "x-line-signature").getD "" ≠
      createSignature (env.lineChannelSecret.getD "") req.rawBody) :
    (handlePost env req o1 o2).httpStatus = 401 ∧
      (handlePost env req o1 o2).bodyStatus = 401 ∧
      (handlePost env req o1 o2).calls = [] ∧
      (handlePost env req o1 o2).forwardResults = [] := by
  have hv : validateSignature (env.lineChannelSecret.getD "")
      ((headerLookup req.headers "x-line-signature").getD "") req.rawBody = false := by
    unfold validateSignature
    exact beq_eq_false_iff_ne.mpr hsig
  simp [handlePost, henv, hv]

/-- Witness for C2: a wrong literal signature is rejected with 401 and
no outbound call. -/
theorem invalid_signature_401_witness :
    (handlePost envW reqBogus FetchOutcome.timeout FetchOutcome.networkError).bodyStatus = 401 ∧
      (handlePost envW reqBogus FetchOutcome.timeout FetchOutcome.networkError).calls = [] := by
  have h := invalid_signature_401_no_forward envW reqBogus
    FetchOutcome.timeout FetchOutcome.networkError envW_valid
    (by
      intro hcontra
      have hl := congrArg String.length hcontra
      rw [createSignature_length] at hl
      exact absurd hl (by decide))
  exact ⟨h.2.1, h.2.2.1⟩

/-- C3 (modelled from the spec): a text event whose trimmed text is
bracket-enclosed is withheld from the second downstream while the
whole-envelope forward to the first downstream still carries the raw
body; any other text event's verbatim raw envelope body goes to the
second downstream as well. A lone closing bracket fails the filter, the
empty enclosure passes it. -/
theorem bracket_filter_dispatch (envp : InboundEnvelope) (rt s : String)
    (he : InboundEvent.message rt (MessageContent.text s) ∈ envp.events) :
    (isExclusiveToFirstDownstream "】" = false ∧
      isExclusiveToFirstDownstream "【】" = true) ∧
    (isExclusiveToFirstDownstream s = true →
      dispatchEvent envp.rawBody (InboundEvent.message rt (MessageContent.text s)) = [] ∧
      DispatchAction.forwardRawToFirst envp.rawBody ∈ dispatchEnvelope envp) ∧
    (isExclusiveToFirstDownstream s = false →
      dispatchEvent envp.rawBody (InboundEvent.message rt (MessageContent.text s)) =
        [DispatchAction.forwardRawToSecond envp.rawBody] ∧
      DispatchAction.forwardRawToSecond envp.rawBody ∈ dispatchEnvelope envp ∧
      DispatchAction.forwardRawToFirst envp.rawBody ∈ dispatchEnvelope envp) := by
  refine ⟨⟨by decide, by decide⟩, ?_, ?_⟩
  · intro hex
    refine ⟨by simp [dispatchEvent, hex], ?_⟩
    unfold dispatchEnvelope
    exact List.mem_cons_self _ _
  · intro hex
    refine ⟨by simp [dispatchEvent, hex], ?_, ?_⟩
    · unfold dispatchEnvelope
      apply List.mem_cons_of_mem
      rw [List.mem_flatten]
      exact ⟨dispatchEvent envp.rawBody (InboundEvent.message rt (MessageContent.text s)),
        List.mem_map_of_mem _ he, by simp [dispatchEvent, hex]⟩
    · unfold dispatchEnvelope
      exact List.mem_cons_self _ _

/-- Witness for C3: one bracket-enclosed text event is dropped from the
second downstream's dispatch. -/
theorem bracket_filter_dispatch_witness :
    dispatchEvent "RAW"
      (InboundEvent.message "rt" (MessageContent.text "【a】")) = [] := by
  have h := bracket_filter_dispatch
    ⟨"dest", [InboundEvent.message "rt" (MessageContent.text "【a】")], "RAW"⟩
    "rt" "【a】" (by decide)
  exact (h.2.1 (by decide)).1

/-- C4 counterexample: the universal claim that distinct bodies never
verify against each other's signature is false — the MAC maps
infinitely many bodies into finitely many 32-byte digests, so some pair
of distinct bodies shares its signature. -/
theorem mac_universal_separation_false :
    ¬ (∀ B1 B2 S : String, B1 ≠ B2 →
        validateSignature S (createSignature S B1) B2 = false) := by
  intro h
  obtain ⟨B1, B2, hne, heq⟩ := createSignature_not_injective "S"
  have hfalse := h B1 B2 "S" hne
  unfold validateSignature at hfalse
  rw [heq] at hfalse
  simp at hfalse

/-- C4 amended: verifying `sign(B,S)` against `B` always succeeds, and
verifying `sign(B1,S)` against `B2` succeeds exactly when the two
signatures coincide — so distinct bodies are rejected precisely when
their MACs differ, not universally. -/
theorem signature_check_iff_mac_equal :
    (∀ B S : String, validateSignature S (createSignature S B) B = true) ∧
    (∀ B1 B2 S : String,
      (validateSignature S (createSignature S B1) B2 = true ↔
        createSignature S B1 = createSignature S B2)) := by
  constructor
  · intro B S
    simp [validateSignature]
  · intro B1 B2 S
    unfold validateSignature
    exact beq_iff_eq

/-- C5: after verification both destinations receive one POST each with
the raw request body, byte for byte, hence bodies identical to each
other. -/
theorem forwards_carry_exact_raw_body
    (env : Env) (req : Request) (o1 o2 : FetchOutcome)
    (henv : validateEnvVars env = true)
    (hsig : validateSignature (env.lineChannelSecret.getD "")
      ((headerLookup req.headers "x-line-signature").getD "") req.rawBody = true) :
    (handlePost env req o1 o2).calls.map OutboundCall.body =
      [req.rawBody, req.rawBody] := by
  simp [handlePost, henv, hsig]

/-- Witness for C5: the "hello" body reaches both destinations
verbatim. -/
theorem forwards_carry_exact_raw_body_witness :
    (handlePost envW reqSigned (FetchOutcome.ok 200) (FetchOutcome.ok 200)).calls.map
      OutboundCall.body = ["hello", "hello"] :=
  forwards_carry_exact_raw_body envW reqSigned (FetchOutcome.ok 200)
    (FetchOutcome.ok 200) envW_valid reqSigned_sig_valid

/-- C6: for every inbound header mapping, including mixed-case
adversarial names, no output entry of the sanitiser has a blacklisted
lowercased name, and every output entry is a seeded default, the
optional signature entry, or an inbound entry whose name passes the
x-line copy-through test. -/
theorem header_sanitizer_blacklist_free (headers : List (String × String))
    (sig : String) (inc : Bool) (p : String × String)
    (hp : p ∈ prepareLINEHeaders headers sig inc) :
    lowerStr p.1 ∉ blacklistedHeaders ∧
      (p ∈ defaultForwardHeaders ∨ (inc = true ∧ p = ("X-Line-Signature", sig)) ∨
        (lineForwardCond p.1 = true ∧ p ∈ headers)) := by
  have hm := prepareLINEHeaders_mem headers sig inc p hp
  refine ⟨?_, hm⟩
  rcases hm with hdef | ⟨_, hkv⟩ | ⟨hc, _⟩
  · exact defaults_lower_safe p hdef
  · rw [hkv]
    exact sig_lower_safe
  · exact lower_line_not_blacklisted (lineForwardCond_starts p.1 hc)

/-- Witness for C6: an adversarial mixed-case forwarded header is
dropped while an x-line header passes through. -/
theorem header_sanitizer_blacklist_free_witness :
    lowerStr ("x-line-retry", "0").1 ∉ blacklistedHeaders ∧
      (("x-line-retry", "0") ∈ defaultForwardHeaders ∨
        (true = true ∧ ("x-line-retry", "0") = ("X-Line-Signature", "sg")) ∨
        (lineForwardCond ("x-line-retry", "0").1 = true ∧
          ("x-line-retry", "0") ∈
            [("X-FoRwArDeD-FoR", "1"), ("x-line-retry", "0")])) :=
  header_sanitizer_blacklist_free
    [("X-FoRwArDeD-FoR", "1"), ("x-line-retry", "0")] "sg" true
    ("x-line-retry", "0") (by decide)

/-- C7 counterexample: with the four checked values present and the
AI-processor key absent, the handler proceeds past the configuration
check — the response is never the configuration-error 500 — refuting
the claim that any of five missing values yields 500. -/
theorem config_check_ignores_ai_key :
    envFalsy (Env.difyApiKey ⟨some "t", some "s", some "u", some "d", none⟩) = true ∧
    validateEnvVars ⟨some "t", some "s", some "u", some "d", none⟩ = true ∧
    (handlePost ⟨some "t", some "s", some "u", some "d", none⟩ ⟨[], "b"⟩
      FetchOutcome.timeout FetchOutcome.timeout).bodyStatus ≠ 500 := by
  refine ⟨rfl, by decide, ?_⟩
  have henv : validateEnvVars ⟨some "t", some "s", some "u", some "d", none⟩ = true := by
    decide
  cases hvs : validateSignature "s" "" "b" with
  | false => simp [handlePost, headerLookup, henv, hvs]
  | true => simp [handlePost, headerLookup, henv, hvs]

/-- C7 amended: the handler answers body status 500 exactly when the
environment check fails, and that check fails exactly when one of the
FOUR names it verifies — access token, channel secret, destination-1
URL, destination-2 URL — is missing or empty; the AI-processor key is
not part of the check. -/
theorem post_500_iff_checked_config_missing (env : Env) (req : Request)
    (o1 o2 : FetchOutcome) :
    ((handlePost env req o1 o2).bodyStatus = 500 ↔ validateEnvVars env = false) ∧
    (validateEnvVars env = false ↔
      (envFalsy env.lineChannelAccessToken || envFalsy env.lineChannelSecret ||
        envFalsy env.lstepWebhookUrl || envFalsy env.difyLineBotEndpoint) = true) := by
  constructor
  · cases henv : validateEnvVars env with
    | false => simp [handlePost, henv]
    | true =>
      cases hvs : validateSignature (env.lineChannelSecret.getD "")
          ((headerLookup req.headers "x-line-signature").getD "") req.rawBody with
      | false => simp [handlePost, henv, hvs]
      | true => simp [handlePost, henv, hvs]
  · unfold validateEnvVars requiredEnvKeys envLookup
    cases h1 : envFalsy env.lineChannelAccessToken <;>
      cases h2 : envFalsy env.lineChannelSecret <;>
        cases h3 : envFalsy env.lstepWebhookUrl <;>
          cases h4 : envFalsy env.difyLineBotEndpoint <;>
            simp [List.filter, h1, h2, h3, h4]

/-- C8: after verification, the first destination's headers carry the
signature entry with the original inbound value, while no header sent
to the second destination is, up to case, the signature header. -/
theorem signature_header_asymmetry (env : Env) (req : Request)
    (o1 o2 : FetchOutcome) (henv : validateEnvVars env = true)
    (hsig : validateSignature (env.lineChannelSecret.getD "")
      ((headerLookup req.headers "x-line-signature").getD "") req.rawBody = true) :
    ∃ h1 h2 : List (String × String),
      (handlePost env req o1 o2).calls =
        [{ url := env.lstepWebhookUrl.getD "", headers := h1, body := req.rawBody },
         { url := env.difyLineBotEndpoint.getD "", headers := h2, body := req.rawBody }] ∧
      headerLookup h1 "X-Line-Signature" =
        some ((headerLookup req.headers "x-line-signature").getD "") ∧
      (∀ p ∈ h2, lowerStr p.1 ≠ "x-line-signature") := by
  have hcalls : (handlePost env req o1 o2).calls =
      [{ url := env.lstepWebhookUrl.getD "",
         headers := prepareLINEHeaders req.headers
           ((headerLookup req.headers "x-line-signature").getD "") true,
         body := req.rawBody },
       { url := env.difyLineBotEndpoint.getD "",
         headers := prepareLINEHeaders req.headers
           ((headerLookup req.headers "x-line-signature").getD "") false,
         body := req.rawBody }] := by
    simp [handlePost, henv, hsig]
  refine ⟨_, _, hcalls, ?_, ?_⟩
  · exact prepare_sig_lookup req.headers _
  · exact fun p hp => prepare_no_sig req.headers _ p hp

/-- Witness for C8: the verified request yields exactly two calls. -/
theorem signature_header_asymmetry_witness :
    (handlePost envW reqSigned (FetchOutcome.ok 200) (FetchOutcome.ok 200)).calls.length = 2 := by
  obtain ⟨h1, h2, hc, _, _⟩ := signature_header_asymmetry envW reqSigned
    (FetchOutcome.ok 200) (FetchOutcome.ok 200) envW_valid reqSigned_sig_valid
  rw [hc]
  rfl

/-- C9 (modelled from the spec): when the staging upload fails, the
event's pipeline stops after fetch and stage — no processor request and
no reply for that event — while every event's trace is computed from
its own collaborators and the response stays 200. -/
theorem media_staging_failure_skips_event
    (collab : String → MediaCollaborators) (events : List (String × String))
    (mid rt : String) (blob : List Nat × String)
    (hfetch : (collab mid).fetched = some blob)
    (hstage : (collab mid).stagedUrl = none) :
    mediaPipeline (collab mid) mid rt =
      [MediaAction.fetchContent mid, MediaAction.stageUpload mid] ∧
    (∀ a ∈ mediaPipeline (collab mid) mid rt,
      (∀ u, a ≠ MediaAction.processorRequest u) ∧
      (∀ tk tx, a ≠ MediaAction.sendReply tk tx)) ∧
    (processMediaEvents collab events).1 = 200 ∧
    (processMediaEvents collab events).2 =
      events.map (fun e => mediaPipeline (collab e.1) e.1 e.2) := by
  have hp : mediaPipeline (collab mid) mid rt =
      [MediaAction.fetchContent mid, MediaAction.stageUpload mid] := by
    unfold mediaPipeline
    rw [hfetch, hstage]
  refine ⟨hp, ?_, rfl, rfl⟩
  intro a ha
  rw [hp] at ha
  simp only [List.mem_cons, List.not_mem_nil, or_false] at ha
  rcases ha with ha | ha
  · subst ha
    exact ⟨fun u => by simp, fun tk tx => by simp⟩
  · subst ha
    exact ⟨fun u => by simp, fun tk tx => by simp⟩

/-- Witness for C9: a concrete event whose staging fails is skipped
after the failed upload. -/
theorem media_staging_failure_witness :
    mediaPipeline ⟨some ([1], "image/jpeg"), none, some "answer"⟩ "m1" "rt1" =
      [MediaAction.fetchContent "m1", MediaAction.stageUpload "m1"] := by
  have h := media_staging_failure_skips_event
    (fun _ => ⟨some ([1], "image/jpeg"), none, some "answer"⟩)
    [("m1", "rt1")] "m1" "rt1" ([1], "image/jpeg") rfl rfl
  exact h.1

/-- C10: with valid configuration and no signature header at all, the
empty string is substituted for the signature; the computed signature
is always a (44-character) non-empty base64 string, so verification
fails, the response is 401 and no outbound call is issued. -/
theorem missing_signature_header_rejected (env : Env) (req : Request)
    (o1 o2 : FetchOutcome) (henv : validateEnvVars env = true)
    (hnone : headerLookup req.headers "x-line-signature" = none) :
    createSignature (env.lineChannelSecret.getD "") req.rawBody ≠ "" ∧
      (handlePost env req o1 o2).httpStatus = 401 ∧
      (handlePost env req o1 o2).bodyStatus = 401 ∧
      (handlePost env req o1 o2).calls = [] := by
  have hne : createSignature (env.lineChannelSecret.getD "") req.rawBody ≠ "" := by
    intro h
    have hl := congrArg String.length h
    rw [createSignature_length] at hl
    exact absurd hl (by decide)
  have hv : validateSignature (env.lineChannelSecret.getD "")
      ((headerLookup req.headers "x-line-signature").getD "") req.rawBody = false := by
    rw [hnone]
    exact validateSignature_false_of_length _ _ _ (by decide)
  refine ⟨hne, ?_⟩
  simp [handlePost, henv, hv]

/-- Witness for C10: a request with no signature header is rejected
with 401 and no outbound call. -/
theorem missing_signature_header_witness :
    (handlePost envW reqNoSig FetchOutcome.timeout FetchOutcome.timeout).bodyStatus = 401 ∧
      (handlePost envW reqNoSig FetchOutcome.timeout FetchOutcome.timeout).calls = [] := by
  have h := missing_signature_header_rejected envW reqNoSig
    FetchOutcome.timeout FetchOutcome.timeout envW_valid (by decide)
  exact ⟨h.2.2.1, h.2.2.2⟩

end LineProxy
